import Mathlib

/-!
# Project2: a three-page Go web site (`main.go`)

The program registers four routes on the default request multiplexer of Go's
`net/http` and serves them with three handlers (`homeHandler`, `aboutHandler`,
`contactHandler`) and a static-file responder.

Modelling decisions.

* Go strings and byte slices are modelled by Lean strings, one character for one
  byte; the only operations the program performs on them are comparison and
  concatenation.
* A handler is a function from the request and the response writer it is given to
  the response writer it leaves behind.  The response of a handler is the status
  and the body accumulated in the writer; headers, and what the transport does
  with a response afterwards (content-type sniffing, chunking, dropping the body
  of a `HEAD` response), are not part of the model.
* The template engine (`html/template`) and the file system are the environment
  `Env`: loading a file either fails with an error text or yields a template, and
  a template is characterised by what executing it against a view writes and
  whether it fails.
* The library functions the program calls (`http.Error`, `Request.FormValue`,
  `fmt.Fprintf`, `ServeMux`, `http.StripPrefix`, `http.FileServer`) are modelled
  from their documented behaviour; the multiplexer is the one of Go 1.22 and
  later, which matches the escaped request path segment by segment.
-/

namespace GoWebsite

/-! ## Requests and response writers -/

/-- The fields of `http.Request` the program and its routes depend on: the method,
`URL.Path` (the decoded path), `URL.RawPath` (the path as it was sent, kept only
when it differs from the default encoding of `URL.Path`, and empty otherwise),
the parsed form (`r.Form`, the map from field name to the list of values
submitted in the body and the query, with `[]` for an absent key) and the
request headers. -/
structure Request where
  Method : String
  Path : String
  RawPath : String
  Form : String → List String
  Header : String → List String

/-- Constant `http.MethodPost`. -/
def MethodPost : String := "POST"

/-- Constant `http.StatusOK`. -/
def StatusOK : Nat := 200
/-- Constant `http.StatusMovedPermanently`. -/
def StatusMovedPermanently : Nat := 301
/-- Constant `http.StatusForbidden`. -/
def StatusForbidden : Nat := 403
/-- Constant `http.StatusNotFound`. -/
def StatusNotFound : Nat := 404
/-- Constant `http.StatusInternalServerError`. -/
def StatusInternalServerError : Nat := 500

/-- Method `Request.FormValue`: the first value submitted for `key`, or the empty
string when there is none.  Parse errors are ignored by `FormValue`. -/
def Request.FormValue (r : Request) (key : String) : String :=
  match r.Form key with
  | [] => ""
  | v :: _ => v

/-- Method `Header.Get`: the first value of a request header, or `""`. -/
def Request.HeaderGet (r : Request) (key : String) : String :=
  match r.Header key with
  | [] => ""
  | v :: _ => v

/-- An `http.ResponseWriter`: the status line once it has been written (`none`
before) and the body bytes written so far. -/
structure ResponseWriter where
  status : Option Nat
  body : String
deriving DecidableEq, Repr

/-- The writer a handler receives: nothing written yet. -/
def ResponseWriter.fresh : ResponseWriter := ⟨none, ""⟩

/-- Method `WriteHeader`: fixes the status code; a second call has no effect. -/
def ResponseWriter.WriteHeader (w : ResponseWriter) (code : Nat) : ResponseWriter :=
  match w.status with
  | some _ => w
  | none => { w with status := some code }

/-- Method `Write`: writes the header with status 200 if none was written yet and
appends the data to the body. -/
def ResponseWriter.Write (w : ResponseWriter) (data : String) : ResponseWriter :=
  let w1 := w.WriteHeader StatusOK
  { w1 with body := w1.body ++ data }

/-- What the client is sent: status and body. -/
structure Response where
  status : Nat
  body : String
deriving DecidableEq, Repr

/-- When the handler returns, a header that was never written goes out with
status 200. -/
def ResponseWriter.finish (w : ResponseWriter) : Response :=
  ⟨w.status.getD StatusOK, w.body⟩

/-- Function `http.Error`: writes the header with the given code and then the error
text followed by a line feed (`fmt.Fprintln`). -/
def Error (w : ResponseWriter) (error : String) (code : Nat) : ResponseWriter :=
  (w.WriteHeader code).Write (error ++ "\n")

/-! ## Formatted output -/

/-- The text `fmt` prints for arguments left over after the format is used up. -/
def extraArgs (args : List String) : List Char :=
  "%!(EXTRA ".data ++
    (String.intercalate ", " (args.map fun a => "string=" ++ a)).data ++ ")".data

/-- Expansion of a format whose only verb is `%s`, applied to string operands:
each `%s` is replaced by the next operand, byte for byte; every other character
is copied. -/
def sprintfAux : List Char → List String → List Char
  | [], [] => []
  | [], a :: args => extraArgs (a :: args)
  | '%' :: 's' :: rest, a :: args => a.data ++ sprintfAux rest args
  | '%' :: 's' :: rest, [] => "%!s(MISSING)".data ++ sprintfAux rest []
  | c :: rest, args => c :: sprintfAux rest args

/-- Function `fmt.Fprintf` on a response writer, for `%s` formats and string
operands: one `Write` of the expanded text. -/
def Fprintf (w : ResponseWriter) (format : String) (args : List String) : ResponseWriter :=
  w.Write ⟨sprintfAux format.data args⟩

/-! ## Templates and the environment -/

/-- A `map[string]string`: a finite map given by its lookup function. -/
abbrev GoMap := String → Option String

/-- The empty map literal. -/
def GoMap.empty : GoMap := fun _ => none

/-- One `key: value` entry of a map literal. -/
def GoMap.set (m : GoMap) (key value : String) : GoMap :=
  fun k => if k = key then some value else m k

/-- Result of `Template.Execute`: the output that reached the writer and the error
returned, if any.  On an error the output is whatever had been written before
execution stopped. -/
structure ExecResult where
  out : String
  err : Option String
deriving DecidableEq, Repr

/-- A loaded template, characterised by its execution against the data it is
given (`none` for Go's `nil`). -/
abbrev Template := Option GoMap → ExecResult

/-- Method `Template.Execute` on a response writer: the output is written to the
writer; the returned error is the second component. -/
def Execute (tmpl : Template) (w : ResponseWriter) (data : Option GoMap) :
    ResponseWriter × Option String :=
  ((w.Write (tmpl data).out), (tmpl data).err)

/-- Outcome of opening a name under the static root. -/
inductive OpenError where
  | notExist
  | permission
  | other
deriving DecidableEq, Repr

/-- What a name under the static root denotes: a regular file with its bytes, or
a directory. -/
inductive Entry where
  | file (content : String)
  | dir
deriving DecidableEq, Repr

/-- The world outside the program: the template files as `template.ParseFiles`
sees them, the tree under `./static` as `http.Dir("./static").Open` sees it, and
the parts of the host stack left abstract (the body of a redirect response, the
listing of a directory, the answer to a conditional or range request). -/
structure Env where
  ParseFiles : String → Except String Template
  Open : String → Except OpenError Entry
  redirectBody : String → String → String
  dirList : String → String
  conditional : Request → String → ResponseWriter → ResponseWriter

/-! ## The handlers of `main.go` -/

/-- The view built by `homeHandler`. -/
def homeData : GoMap :=
  (GoMap.empty.set "Title" "Welcome to Go Website").set "Name" "Go Developer"

/-- The view built by `aboutHandler`. -/
def aboutData : GoMap :=
  (GoMap.empty.set "Title" "About Us").set "Content"
    "This is a simple Go website for learning and practice."

/-- Handler for home page. -/
def homeHandler (env : Env) (w : ResponseWriter) (_r : Request) : ResponseWriter :=
  let data := homeData
  match env.ParseFiles "templates/home.html" with
  | .error err => Error w err StatusInternalServerError
  | .ok tmpl => (Execute tmpl w (some data)).1

/-- Handler for about page. -/
def aboutHandler (env : Env) (w : ResponseWriter) (_r : Request) : ResponseWriter :=
  let data := aboutData
  match env.ParseFiles "templates/about.html" with
  | .error err => Error w err StatusInternalServerError
  | .ok tmpl => (Execute tmpl w (some data)).1

/-- Handler for contact page. -/
def contactHandler (env : Env) (w : ResponseWriter) (r : Request) : ResponseWriter :=
  if r.Method = MethodPost then
    let name := r.FormValue "name"
    let email := r.FormValue "email"
    let message := r.FormValue "message"
    Fprintf w "Thank you %s! Your message has been received.\nEmail: %s\nMessage: %s"
      [name, email, message]
  else
    match env.ParseFiles "templates/contact.html" with
    | .error err => Error w err StatusInternalServerError
    | .ok tmpl => (Execute tmpl w none).1

/-- The response of a handler started on a fresh writer. -/
def respond (h : ResponseWriter → Request → ResponseWriter) (r : Request) : Response :=
  (h ResponseWriter.fresh r).finish

/-! ## Paths -/

/-- The elements of a slash-separated path: the pieces between the slashes. -/
def splitSlash : List Char → List (List Char)
  | [] => [[]]
  | c :: cs =>
    match splitSlash cs with
    | [] => [[]]
    | e :: es => if c = '/' then [] :: e :: es else (c :: e) :: es

/-- The element rules of `path.Clean`, with the kept elements on a stack: empty
elements and `.` are dropped; `..` removes the element before it, is dropped at
the root of a rooted path, and is kept at the start of an unrooted one. -/
def cleanElems (rooted : Bool) : List (List Char) → List (List Char) → List (List Char)
  | stack, [] => stack.reverse
  | stack, e :: es =>
    if e = [] ∨ e = ['.'] then cleanElems rooted stack es
    else if e = ['.', '.'] then
      match stack with
      | top :: below =>
        if top = ['.', '.'] then cleanElems rooted (e :: stack) es
        else cleanElems rooted below es
      | [] => if rooted then cleanElems rooted [] es else cleanElems rooted [e] es
    else cleanElems rooted (e :: stack) es

/-- Function `path.Clean`: the shortest path name equivalent to the given one. -/
def pathClean (p : List Char) : List Char :=
  match p with
  | [] => ['.']
  | c :: _ =>
    let rooted : Bool := c = '/'
    let out := List.intercalate ['/'] (cleanElems rooted [] (splitSlash p))
    if rooted then '/' :: out else if out = [] then ['.'] else out

/-- Function `cleanPath` of `net/http`: the canonical form of a request path,
rooted, cleaned, and with its trailing slash kept. -/
def cleanPath (p : String) : String :=
  if p = "" then "/"
  else
    let p1 : String := if p.data.head? = some '/' then p else "/" ++ p
    let np : String := ⟨pathClean p1.data⟩
    if p1.data.getLast? = some '/' ∧ np ≠ "/" then
      if p1.length = np.length + 1 ∧ np.data <+: p1.data then p1 else np ++ "/"
    else np

/-! ## Escaped paths -/

/-- Function `shouldEscape` of `net/url` for a path: letters, digits, the marks
`-_.~` and the reserved characters other than `?` are sent as they are; every
other byte is percent-escaped. -/
def shouldEscape (c : Char) : Bool :=
  if c.isAlphanum then false
  else if c = '-' ∨ c = '_' ∨ c = '.' ∨ c = '~' then false
  else if c = '$' ∨ c = '&' ∨ c = '+' ∨ c = ',' ∨ c = '/' ∨ c = ':' ∨ c = ';' ∨ c = '=' ∨
      c = '@' then false
  else true

/-- Function `ishex` of `net/url`. -/
def ishex (c : Char) : Bool :=
  ('0' ≤ c ∧ c ≤ '9') ∨ ('a' ≤ c ∧ c ≤ 'f') ∨ ('A' ≤ c ∧ c ≤ 'F')

/-- Function `unhex` of `net/url`: the value of a hexadecimal digit. -/
def unhex (c : Char) : Nat :=
  if '0' ≤ c ∧ c ≤ '9' then c.toNat - '0'.toNat
  else if 'a' ≤ c ∧ c ≤ 'f' then c.toNat - 'a'.toNat + 10
  else if 'A' ≤ c ∧ c ≤ 'F' then c.toNat - 'A'.toNat + 10
  else 0

/-- Function `unescape` of `net/url` for a path: every `%XX` is replaced by the
byte it denotes; a `%` that is not followed by two hexadecimal digits is an
error (`none`). -/
def unescape : List Char → Option (List Char)
  | [] => some []
  | c :: rest =>
    if c = '%' then
      match rest with
      | a :: b :: rest2 =>
        if ishex a ∧ ishex b then
          (unescape rest2).map fun t => Char.ofNat (unhex a * 16 + unhex b) :: t
        else none
      | _ => none
    else (unescape rest).map fun t => c :: t

/-- The digit `upperhex[n]` of `net/url`. -/
def upperhex (n : Nat) : Char :=
  "0123456789ABCDEF".data.getD (n % 16) '0'

/-- Function `escape` of `net/url` for a path: every byte that has to be escaped
becomes `%` and its two hexadecimal digits. -/
def escape : List Char → List Char
  | [] => []
  | c :: rest =>
    if shouldEscape c then
      '%' :: upperhex (c.toNat / 16) :: upperhex (c.toNat % 16) :: escape rest
    else c :: escape rest

/-- Function `validEncoded` of `net/url` for a path: the bytes of a raw path that
may stand in an escaped path. -/
def validEncoded (s : List Char) : Bool :=
  s.all fun c =>
    if c = '!' ∨ c = '$' ∨ c = '&' ∨ c = '\'' ∨ c = '(' ∨ c = ')' ∨ c = '*' ∨ c = '+' ∨
        c = ',' ∨ c = ';' ∨ c = '=' ∨ c = ':' ∨ c = '@' ∨ c = '[' ∨ c = ']' ∨ c = '%' then true
    else !shouldEscape c

/-- Method `URL.EscapedPath`: the raw path when it is a valid encoding of the path,
and the default encoding of the path otherwise. -/
def Request.EscapedPath (r : Request) : String :=
  if r.RawPath ≠ "" ∧ validEncoded r.RawPath.data = true ∧
      unescape r.RawPath.data = some r.Path.data then r.RawPath
  else if r.Path = "*" then "*"
  else ⟨escape r.Path.data⟩

/-- Function `pathUnescape` of `net/http`: the unescaped text, or the text itself
when it cannot be unescaped. -/
def pathUnescape (s : List Char) : List Char :=
  (unescape s).getD s

/-! ## The request multiplexer -/

/-- The handlers `main` registers. -/
inductive HandlerId where
  | home
  | about
  | contact
  | static
deriving DecidableEq, Repr

/-- One registration: the pattern as written, its literal segments, whether it
ends in a slash (and then matches every path below it), and its handler. -/
structure muxEntry where
  pattern : String
  segments : List (List Char)
  multi : Bool
  h : HandlerId
deriving DecidableEq, Repr

/-- A `ServeMux`: its registrations. -/
structure ServeMux where
  patterns : List muxEntry
deriving DecidableEq, Repr

/-- The segments of a pattern, for the pieces between the slashes of its path: a
last piece that is empty is the trailing slash, every other piece is a literal
segment. -/
def patternSegments : List (List Char) → List (List Char) × Bool
  | [] => ([], false)
  | [e] => if e = [] then ([], true) else ([pathUnescape e], false)
  | e :: es => ((pathUnescape e) :: (patternSegments es).1, (patternSegments es).2)

/-- Function `parsePattern` of `net/http`, for patterns that are a path of literal
segments, the only ones `main` registers.  Patterns with a method, a host or a
wildcard are outside this model. -/
def parsePattern (s : String) : Except String (List (List Char) × Bool) :=
  match s.data with
  | [] => .error "empty pattern"
  | c :: p =>
    if c ≠ '/' then .error "pattern with a method or a host"
    else if '\x7b' ∈ p then .error "pattern with a wildcard"
    else .ok (patternSegments (splitSlash p))

/-- Method `ServeMux.Handle`: registers a handler for a pattern.  An invalid
pattern and a pattern that conflicts with a registered one make the library
panic; two patterns of literal segments conflict when they are the same. -/
def ServeMux.Handle (mux : ServeMux) (pattern : String) (h : HandlerId) :
    Except String ServeMux :=
  match parsePattern pattern with
  | .error e => .error ("http: invalid pattern: " ++ e)
  | .ok (segments, multi) =>
    if mux.patterns.any (fun e => e.segments = segments ∧ e.multi = multi) then
      .error ("http: pattern conflicts with a registered pattern: " ++ pattern)
    else .ok ⟨mux.patterns ++ [⟨pattern, segments, multi, h⟩]⟩

/-- What the multiplexer decides for a request: a registered handler, a redirect
to another path, or the not-found handler. -/
inductive Route where
  | handler (h : HandlerId)
  | redirect (url : String)
  | notFound
deriving DecidableEq, Repr

/-- The segments of the pieces of a path: each piece unescaped, and `/` for the
empty piece after a trailing slash. -/
def segmentsOf : List (List Char) → List (List Char)
  | [] => []
  | [e] => if e = [] then [['/']] else [pathUnescape e]
  | e :: es => pathUnescape e :: segmentsOf es

/-- The segments that `firstSegment` of `net/http` yields one after the other for a
path: the first byte is dropped, the text up to the next slash is a segment,
unescaped, and a path that is down to a single slash yields the segment `/`. -/
def pathSegments : List Char → List (List Char)
  | [] => []
  | [c] => if c = '/' then [['/']] else [[]]
  | _ :: p => segmentsOf (splitSlash p)

/-- Method `routingNode.matchPath`, on the registrations below a node of the
routing tree, each with the segments it still expects: a registration that
expects nothing more matches the end of the path; otherwise the child for the
next segment is tried first and the trailing-slash registration of the node
itself after it. -/
def routingMatch : List (List (List Char) × muxEntry) → List (List Char) → Option muxEntry
  | node, [] => (node.find? fun e => e.1 = [] ∧ e.2.multi = false).map fun e => e.2
  | node, seg :: rest =>
    let child := node.filterMap fun e =>
      match e.1 with
      | s :: ss => if s = seg then some (ss, e.2) else none
      | [] => none
    match routingMatch child rest with
    | some e => some e
    | none => (node.find? fun e => e.1 = [] ∧ e.2.multi = true).map fun e => e.2

/-- The match of a path in the routing tree of a multiplexer. -/
def ServeMux.matchTree (mux : ServeMux) (path : String) : Option muxEntry :=
  routingMatch (mux.patterns.map fun e => (e.segments, e)) (pathSegments path.data)

/-- Function `exactMatch` of `net/http`: a match by a pattern without trailing
slash is exact; a match by a pattern with one is exact when the path ends in a
slash and has as many slashes as the pattern has segments. -/
def exactMatch (n : Option muxEntry) (path : String) : Bool :=
  match n with
  | none => false
  | some e =>
    if e.multi = false then true
    else if path.data.getLast? ≠ some '/' then false
    else decide (e.segments.length + 1 = path.data.count '/')

/-- Method `ServeMux.matchOrRedirect`: the match of the path, or, when the match is
not exact, the path does not end in a slash and the path followed by a slash is
matched exactly, the redirect to that path.  No redirect is tried without a URL
(`u = none`). -/
def ServeMux.matchOrRedirect (mux : ServeMux) (path : String) (u : Option String) :
    Option muxEntry × Option String :=
  let n := mux.matchTree path
  match u with
  | none => (n, none)
  | some upath =>
    if exactMatch n path = false ∧ path.data.getLast? ≠ some '/' then
      if exactMatch (mux.matchTree (path ++ "/")) (path ++ "/") then
        (none, some (cleanPath upath ++ "/"))
      else (n, none)
    else (n, none)

/-- The handler of a match, and the not-found handler when there is none. -/
def routeOf : Option muxEntry → Route
  | some e => .handler e.h
  | none => .notFound

/-- Method `ServeMux.findHandler`: `CONNECT` requests are matched on their escaped
path as it is; for every other request the escaped path is cleaned and matched,
and the request is redirected when the cleaned path differs from the escaped
path.  The request URI `*`, which the multiplexer refuses before it looks at the
path, is not a path of this model. -/
def ServeMux.Handler (mux : ServeMux) (r : Request) : Route :=
  let escapedPath := r.EscapedPath
  if r.Method = "CONNECT" then
    match (mux.matchOrRedirect escapedPath (some r.Path)).2 with
    | some u => .redirect u
    | none => routeOf (mux.matchOrRedirect escapedPath none).1
  else
    let path := cleanPath escapedPath
    match mux.matchOrRedirect path (some r.Path) with
    | (_, some u) => .redirect u
    | (n, none) => if path ≠ escapedPath then .redirect path else routeOf n

/-! ## The static-file responder -/

/-- Function `http.NotFound`. -/
def NotFound (w : ResponseWriter) : ResponseWriter :=
  Error w "404 page not found" StatusNotFound

/-- Function `strings.TrimPrefix`. -/
def TrimPrefix (s pre : String) : String :=
  if pre.data <+: s.data then ⟨s.data.drop pre.length⟩ else s

/-- Function `strings.TrimSuffix`. -/
def TrimSuffix (s suf : String) : String :=
  if suf.data <:+ s.data then ⟨s.data.take (s.length - suf.length)⟩ else s

/-- Function `http.StripPrefix`: the wrapped handler sees the path and the raw path
without the prefix; a request whose path, or whose raw path if it has one, does
not start with the prefix gets the not-found reply. -/
def StripPrefix (pre : String) (h : ResponseWriter → Request → ResponseWriter)
    (w : ResponseWriter) (r : Request) : ResponseWriter :=
  if pre = "" then h w r
  else
    let p := TrimPrefix r.Path pre
    let rp := TrimPrefix r.RawPath pre
    if p.length < r.Path.length ∧ (r.RawPath = "" ∨ rp.length < r.RawPath.length) then
      h w { r with Path := p, RawPath := rp }
    else NotFound w

/-- Function `localRedirect` of `net/http`: a 301 reply pointing at a relative
path. -/
def localRedirect (w : ResponseWriter) : ResponseWriter :=
  w.WriteHeader StatusMovedPermanently

/-- Function `toHTTPError` of `net/http`: the reply for a file that cannot be
opened. -/
def toHTTPError : OpenError → String × Nat
  | .notExist => ("404 page not found", StatusNotFound)
  | .permission => ("403 Forbidden", StatusForbidden)
  | .other => ("500 Internal Server Error", StatusInternalServerError)

/-- Whether the request carries a precondition or a range header, which
`serveContent` evaluates before sending a file. -/
def isConditional (r : Request) : Bool :=
  ["If-Match", "If-Unmodified-Since", "If-None-Match", "If-Modified-Since", "Range"].any
    fun k => decide (r.HeaderGet k ≠ "")

/-- Function `serveContent` of `net/http`: without precondition and range headers
the reply is status 200 and, unless the method is `HEAD`, the whole content. -/
def serveContent (env : Env) (w : ResponseWriter) (r : Request) (content : String) :
    ResponseWriter :=
  if isConditional r then env.conditional r content w
  else
    let w1 := w.WriteHeader StatusOK
    if r.Method ≠ "HEAD" then w1.Write content else w1

/-- Function `dirList` of `net/http`: the listing of a directory. -/
def dirList (env : Env) (w : ResponseWriter) (r : Request) (name : String) : ResponseWriter :=
  if isConditional r then env.conditional r (env.dirList name) w
  else w.Write (env.dirList name)

/-- Function `serveFile` of `net/http`, with redirection enabled: a path ending in
`/index.html` is redirected to its directory; a name that cannot be opened gets
the error reply; a directory is served under a path ending in a slash, by its
`index.html` if there is one and by its listing otherwise; a file is served under
a path not ending in a slash, and a file reached under a path of slashes only is
an error.  The `Location` of a redirect is a header and not recorded. -/
def serveFile (env : Env) (w : ResponseWriter) (r : Request) (name : String) :
    ResponseWriter :=
  if "/index.html".data <:+ r.Path.data then localRedirect w
  else
    match env.Open name with
    | .error e => Error w (toHTTPError e).1 (toHTTPError e).2
    | .ok (.file content) =>
      if r.Path.data.getLast? = some '/' then
        if r.Path.data.all (fun c => c = '/') then
          Error w "http: attempting to traverse a non-directory" StatusInternalServerError
        else localRedirect w
      else serveContent env w r content
    | .ok .dir =>
      if r.Path.data.getLast? ≠ some '/' then localRedirect w
      else
        match env.Open (TrimSuffix name "/" ++ "/index.html") with
        | .ok (.file content) => serveContent env w r content
        | .ok .dir => dirList env w r (TrimSuffix name "/" ++ "/index.html")
        | .error _ => dirList env w r name

/-- Function `http.FileServer` over `http.Dir("./static")`. -/
def FileServer (env : Env) (w : ResponseWriter) (r : Request) : ResponseWriter :=
  let upath : String := if r.Path.data.head? = some '/' then r.Path else "/" ++ r.Path
  serveFile env w { r with Path := upath } ⟨pathClean upath.data⟩

/-- The handler registered under `/static/`. -/
def staticHandler (env : Env) : ResponseWriter → Request → ResponseWriter :=
  StripPrefix "/static/" (FileServer env)

/-! ## The server -/

/-- The function a registered handler stands for. -/
def HandlerId.serve (env : Env) : HandlerId → ResponseWriter → Request → ResponseWriter
  | .home => homeHandler env
  | .about => aboutHandler env
  | .contact => contactHandler env
  | .static => staticHandler env

/-- The registrations of `main`, in order, on the empty default multiplexer. -/
def registerRoutes : Except String ServeMux := do
  let mux : ServeMux := ⟨[]⟩
  let mux ← mux.Handle "/" .home
  let mux ← mux.Handle "/about" .about
  let mux ← mux.Handle "/contact" .contact
  mux.Handle "/static/" .static

/-- The default multiplexer as `main` leaves it. -/
def DefaultServeMux : ServeMux :=
  match registerRoutes with
  | .ok mux => mux
  | .error _ => ⟨[]⟩

/-- The registration of `homeHandler`. -/
def homeEntry : muxEntry := ⟨"/", [], true, .home⟩

/-- The registration of `aboutHandler`. -/
def aboutEntry : muxEntry := ⟨"/about", ["about".data], false, .about⟩

/-- The registration of `contactHandler`. -/
def contactEntry : muxEntry := ⟨"/contact", ["contact".data], false, .contact⟩

/-- The registration of the static-file responder. -/
def staticEntry : muxEntry := ⟨"/static/", ["static".data], true, .static⟩

/-- Function `http.Redirect` as the multiplexer uses it: status 301 and the body the
host writes for the method and the target. -/
def Redirect (env : Env) (w : ResponseWriter) (r : Request) (url : String) : ResponseWriter :=
  (w.WriteHeader StatusMovedPermanently).Write (env.redirectBody r.Method url)

/-- The server `main` starts: the default multiplexer with the four routes. -/
structure Server where
  mux : ServeMux
deriving DecidableEq, Repr

/-- The server `main` starts. -/
def main : Server := ⟨DefaultServeMux⟩

/-- Method `ServeMux.ServeHTTP`: the request is passed to the handler the
multiplexer selects, on a fresh writer. -/
def Server.ServeHTTP (env : Env) (s : Server) (r : Request) : Response :=
  match s.mux.Handler r with
  | .handler h => respond (h.serve env) r
  | .redirect url => (Redirect env ResponseWriter.fresh r url).finish
  | .notFound => (NotFound ResponseWriter.fresh).finish

/-! ## Concrete requests and environments -/

/-- A request without form values and headers. -/
def plainRequest (method path : String) : Request :=
  ⟨method, path, "", fun _ => [], fun _ => []⟩

/-- A submission of the contact form with one value for each of the three fields. -/
def postContact (name email message : String) : Request :=
  { Method := "POST"
    Path := "/contact"
    RawPath := ""
    Form := fun k =>
      if k = "name" then [name]
      else if k = "email" then [email]
      else if k = "message" then [message]
      else []
    Header := fun _ => [] }

/-- An installation without any file: no template and nothing under `./static`. -/
def envMissing : Env :=
  { ParseFiles := fun name => .error ("open " ++ name ++ ": no such file or directory")
    Open := fun _ => .error .notExist
    redirectBody := fun _ _ => ""
    dirList := fun _ => ""
    conditional := fun _ _ w => w }

/-- A small home page: it shows the title and the name of its view. -/
def homePage : Template := fun data =>
  match data with
  | some v => ⟨"<h1>" ++ (v "Title").getD "" ++ "</h1><p>" ++ (v "Name").getD "" ++ "</p>", none⟩
  | none => ⟨"<h1>", some "nil data; no entry for key \"Title\""⟩

/-- A small about page: it shows the title and the content of its view. -/
def aboutPage : Template := fun data =>
  match data with
  | some v =>
    ⟨"<h1>" ++ (v "Title").getD "" ++ "</h1><p>" ++ (v "Content").getD "" ++ "</p>", none⟩
  | none => ⟨"<h1>", some "nil data; no entry for key \"Title\""⟩

/-- A contact page without placeholders. -/
def contactPage : Template := fun _ => ⟨"<form method=\"post\"></form>", none⟩

/-- An installation with the three templates, and with `style.css` and
`index.html` under `./static`. -/
def envSite : Env :=
  { ParseFiles := fun name =>
      if name = "templates/home.html" then .ok homePage
      else if name = "templates/about.html" then .ok aboutPage
      else if name = "templates/contact.html" then .ok contactPage
      else .error ("open " ++ name ++ ": no such file or directory")
    Open := fun name =>
      if name = "/" then .ok .dir
      else if name = "/style.css" then .ok (.file "h1 \x7b color: teal \x7d")
      else if name = "/index.html" then .ok (.file "<html></html>")
      else .error .notExist
    redirectBody := fun _ _ => ""
    dirList := fun _ => ""
    conditional := fun _ _ w => w }

/-- The request `GET /static%2Fstyle.css`: the slash after `static` is sent
escaped, so the path has a raw form of its own. -/
def escapedSlashRequest : Request :=
  ⟨"GET", "/static/style.css", "/static%2Fstyle.css", fun _ => [], fun _ => []⟩

/-- A home page that fails in the middle: it has written its opening tags when
the execution stops with an error. -/
def brokenPage : Template := fun _ =>
  ⟨"<html><h1>", some "template: home.html:1:12: executing \"home.html\" at <.Title.X>"⟩

/-- An installation whose templates load and fail while they are rendered. -/
def envBroken : Env :=
  { envSite with ParseFiles := fun _ => .ok brokenPage }

/-! ## Basic facts about writers -/

theorem finish_Write_fresh (s : String) :
    (ResponseWriter.fresh.Write s).finish = ⟨StatusOK, s⟩ := by
  simp [ResponseWriter.fresh, ResponseWriter.Write, ResponseWriter.WriteHeader,
    ResponseWriter.finish]

theorem finish_Error_fresh (e : String) (code : Nat) :
    (Error ResponseWriter.fresh e code).finish = ⟨code, e ++ "\n"⟩ := by
  simp [Error, ResponseWriter.fresh, ResponseWriter.Write, ResponseWriter.WriteHeader,
    ResponseWriter.finish]

theorem sprintf_acknowledgment (name email message : String) :
    (⟨sprintfAux
        "Thank you %s! Your message has been received.\nEmail: %s\nMessage: %s".data
        [name, email, message]⟩ : String) =
      "Thank you " ++ name ++ "! Your message has been received.\nEmail: " ++ email ++
        "\nMessage: " ++ message := by
  apply String.ext
  simp [sprintfAux]

theorem FormValue_of_cons (r : Request) (key v : String) (vs : List String)
    (h : r.Form key = v :: vs) : r.FormValue key = v := by
  simp [Request.FormValue, h]

theorem FormValue_of_nil (r : Request) (key : String) (h : r.Form key = []) :
    r.FormValue key = "" := by
  simp [Request.FormValue, h]

theorem contact_post (env : Env) (r : Request) (h : r.Method = MethodPost) :
    respond (contactHandler env) r =
      ⟨StatusOK, "Thank you " ++ r.FormValue "name" ++
        "! Your message has been received.\nEmail: " ++ r.FormValue "email" ++
        "\nMessage: " ++ r.FormValue "message"⟩ := by
  simp only [respond, contactHandler, h, if_true, Fprintf]
  rw [finish_Write_fresh, sprintf_acknowledgment]

theorem contact_page (env : Env) (w : ResponseWriter) (r : Request)
    (h : r.Method ≠ MethodPost) :
    contactHandler env w r =
      match env.ParseFiles "templates/contact.html" with
      | .error err => Error w err StatusInternalServerError
      | .ok tmpl => (Execute tmpl w none).1 := by
  simp [contactHandler, h]

/-! ## The contact form -/

/-- C1: a POST to the contact handler that submits `name`, `email` and `message`
as the values of the form fields of these names is answered with status 200 and
a body that is exactly the acknowledgment text with the three values embedded
unchanged. -/
theorem contact_post_echoes_fields (env : Env) (r : Request)
    (name email message : String) (ns es ms : List String)
    (hPost : r.Method = MethodPost)
    (hName : r.Form "name" = name :: ns)
    (hEmail : r.Form "email" = email :: es)
    (hMessage : r.Form "message" = message :: ms) :
    respond (contactHandler env) r =
      ⟨200, "Thank you " ++ name ++ "! Your message has been received.\nEmail: " ++
        email ++ "\nMessage: " ++ message⟩ := by
  rw [contact_post env r hPost, FormValue_of_cons r "name" name ns hName,
    FormValue_of_cons r "email" email es hEmail,
    FormValue_of_cons r "message" message ms hMessage]
  rfl

theorem contact_post_echoes_fields_witness :
    respond (contactHandler envMissing) (postContact "Alice" "a@example.com" "Hi") =
      ⟨200, "Thank you Alice! Your message has been received.\nEmail: a@example.com\nMessage: Hi"⟩ :=
  contact_post_echoes_fields envMissing (postContact "Alice" "a@example.com" "Hi")
    "Alice" "a@example.com" "Hi" [] [] [] rfl rfl rfl rfl

/-- C2: on a POST to the contact handler a form field that is absent reads as the
empty string and is no error: the response is status 200 with the acknowledgment
built from the values read, and with all three fields absent the body is the
acknowledgment with three empty values. -/
theorem contact_post_absent_fields (env : Env) (r : Request)
    (hPost : r.Method = MethodPost) :
    (∀ key, r.Form key = [] → r.FormValue key = "") ∧
    respond (contactHandler env) r =
      ⟨200, "Thank you " ++ r.FormValue "name" ++
        "! Your message has been received.\nEmail: " ++ r.FormValue "email" ++
        "\nMessage: " ++ r.FormValue "message"⟩ ∧
    (r.Form "name" = [] → r.Form "email" = [] → r.Form "message" = [] →
      respond (contactHandler env) r =
        ⟨200, "Thank you ! Your message has been received.\nEmail: \nMessage: "⟩) := by
  refine ⟨fun key h => FormValue_of_nil r key h, contact_post env r hPost, ?_⟩
  intro h1 h2 h3
  rw [contact_post env r hPost, FormValue_of_nil r _ h1, FormValue_of_nil r _ h2,
    FormValue_of_nil r _ h3]
  rfl

theorem contact_post_absent_fields_witness :
    respond (contactHandler envSite) (plainRequest "POST" "/contact") =
      ⟨200, "Thank you ! Your message has been received.\nEmail: \nMessage: "⟩ :=
  (contact_post_absent_fields envSite (plainRequest "POST" "/contact") rfl).2.2 rfl rfl rfl

/-- C9: the response to a POST on the contact handler does not depend on the
environment, hence not on the state of `templates/contact.html`: under any two
environments the handler leaves the same writer behind, the status is 200 and it
is never the 500 of a template that fails to load. -/
theorem contact_post_ignores_templates (env1 env2 : Env) (w : ResponseWriter) (r : Request)
    (hPost : r.Method = MethodPost) :
    contactHandler env1 w r = contactHandler env2 w r ∧
    respond (contactHandler env1) r = respond (contactHandler env2) r ∧
    (respond (contactHandler env1) r).status = 200 ∧
    (respond (contactHandler env1) r).status ≠ 500 := by
  refine ⟨?_, ?_, ?_, ?_⟩
  · simp [contactHandler, hPost]
  · rw [contact_post env1 r hPost, contact_post env2 r hPost]
  · rw [contact_post env1 r hPost]; rfl
  · rw [contact_post env1 r hPost]; simp [StatusOK]

theorem contact_post_ignores_templates_witness :
    respond (contactHandler envMissing) (postContact "Bob" "b@example.com" "Hello") =
      respond (contactHandler envSite) (postContact "Bob" "b@example.com" "Hello") :=
  (contact_post_ignores_templates envMissing envSite ResponseWriter.fresh
    (postContact "Bob" "b@example.com" "Hello") rfl).2.1

/-- C6: on a request whose method is not exactly `POST` the contact handler takes
the template branch: it loads `templates/contact.html` and executes it with nil
data, so the response is the load error or the template output, and any two such
requests get the same response whatever their methods and form values. -/
theorem contact_other_methods_same_page (env : Env) (w : ResponseWriter) (r1 r2 : Request)
    (h1 : r1.Method ≠ MethodPost) (h2 : r2.Method ≠ MethodPost) :
    contactHandler env w r1 = contactHandler env w r2 ∧
    respond (contactHandler env) r1 = respond (contactHandler env) r2 ∧
    (∀ e, env.ParseFiles "templates/contact.html" = .error e →
      contactHandler env w r1 = Error w e 500) ∧
    (∀ tmpl, env.ParseFiles "templates/contact.html" = .ok tmpl →
      contactHandler env w r1 = (Execute tmpl w none).1) := by
  refine ⟨?_, ?_, ?_, ?_⟩
  · rw [contact_page env w r1 h1, contact_page env w r2 h2]
  · unfold respond
    rw [contact_page env _ r1 h1, contact_page env _ r2 h2]
  · intro e he
    rw [contact_page env w r1 h1, he]; rfl
  · intro tmpl ht
    rw [contact_page env w r1 h1, ht]

theorem contact_other_methods_same_page_witness :
    respond (contactHandler envSite) (plainRequest "HEAD" "/contact") =
      respond (contactHandler envSite) { postContact "Eve" "e@example.com" "x" with Method := "post" } :=
  (contact_other_methods_same_page envSite ResponseWriter.fresh (plainRequest "HEAD" "/contact")
    { postContact "Eve" "e@example.com" "x" with Method := "post" }
    (by decide) (by decide)).2.1

/-! ## The template pages -/

theorem home_loaded (env : Env) (r : Request) (tmpl : Template)
    (h : env.ParseFiles "templates/home.html" = .ok tmpl) :
    respond (homeHandler env) r = ⟨StatusOK, (tmpl (some homeData)).out⟩ := by
  simp only [respond, homeHandler, h, Execute]
  exact finish_Write_fresh _

theorem about_loaded (env : Env) (r : Request) (tmpl : Template)
    (h : env.ParseFiles "templates/about.html" = .ok tmpl) :
    respond (aboutHandler env) r = ⟨StatusOK, (tmpl (some aboutData)).out⟩ := by
  simp only [respond, aboutHandler, h, Execute]
  exact finish_Write_fresh _

theorem contact_loaded (env : Env) (r : Request) (tmpl : Template)
    (hm : r.Method ≠ MethodPost)
    (h : env.ParseFiles "templates/contact.html" = .ok tmpl) :
    respond (contactHandler env) r = ⟨StatusOK, (tmpl none).out⟩ := by
  unfold respond
  rw [contact_page env _ r hm]
  simp only [h, Execute]
  exact finish_Write_fresh _

theorem home_failed (env : Env) (w : ResponseWriter) (r : Request) (e : String)
    (h : env.ParseFiles "templates/home.html" = .error e) :
    homeHandler env w r = Error w e StatusInternalServerError := by
  simp only [homeHandler, h]

theorem about_failed (env : Env) (w : ResponseWriter) (r : Request) (e : String)
    (h : env.ParseFiles "templates/about.html" = .error e) :
    aboutHandler env w r = Error w e StatusInternalServerError := by
  simp only [aboutHandler, h]

theorem contact_failed (env : Env) (w : ResponseWriter) (r : Request) (e : String)
    (hm : r.Method ≠ MethodPost)
    (h : env.ParseFiles "templates/contact.html" = .error e) :
    contactHandler env w r = Error w e StatusInternalServerError := by
  rw [contact_page env w r hm]
  simp only [h]

theorem homeData_lookup (k : String) :
    homeData k =
      if k = "Name" then some "Go Developer"
      else if k = "Title" then some "Welcome to Go Website" else none := by
  simp [homeData, GoMap.set, GoMap.empty]

theorem aboutData_lookup (k : String) :
    aboutData k =
      if k = "Content" then some "This is a simple Go website for learning and practice."
      else if k = "Title" then some "About Us" else none := by
  simp [aboutData, GoMap.set, GoMap.empty]

/-- C5: for the home and the about handler and every request, when the template
file loads and its execution succeeds the response is status 200 with exactly
the output of the template executed against the fixed view of the handler; the
home view maps `Title` and `Name`, the about view maps `Title` and `Content`, to
the fixed texts, and neither has another key. -/
theorem home_about_render_fixed_view (env : Env) (r : Request) :
    (∀ tmpl, env.ParseFiles "templates/home.html" = .ok tmpl →
      (tmpl (some homeData)).err = none →
      respond (homeHandler env) r = ⟨200, (tmpl (some homeData)).out⟩) ∧
    (∀ tmpl, env.ParseFiles "templates/about.html" = .ok tmpl →
      (tmpl (some aboutData)).err = none →
      respond (aboutHandler env) r = ⟨200, (tmpl (some aboutData)).out⟩) ∧
    homeData "Title" = some "Welcome to Go Website" ∧
    homeData "Name" = some "Go Developer" ∧
    (∀ k, homeData k ≠ none ↔ k = "Title" ∨ k = "Name") ∧
    aboutData "Title" = some "About Us" ∧
    aboutData "Content" = some "This is a simple Go website for learning and practice." ∧
    (∀ k, aboutData k ≠ none ↔ k = "Title" ∨ k = "Content") := by
  refine ⟨fun tmpl h _ => home_loaded env r tmpl h, fun tmpl h _ => about_loaded env r tmpl h,
    by decide, by decide, ?_, by decide, by decide, ?_⟩
  · intro k
    rw [homeData_lookup]
    by_cases h1 : k = "Name" <;> by_cases h2 : k = "Title" <;> simp [h1, h2]
  · intro k
    rw [aboutData_lookup]
    by_cases h1 : k = "Content" <;> by_cases h2 : k = "Title" <;> simp [h1, h2]

theorem home_about_render_fixed_view_witness :
    respond (homeHandler envSite) (plainRequest "GET" "/") =
      ⟨200, "<h1>Welcome to Go Website</h1><p>Go Developer</p>"⟩ :=
  (home_about_render_fixed_view envSite (plainRequest "GET" "/")).1 homePage rfl rfl

/-- C3, as the code has it: when loading the template file of a page handler
(home, about, contact on a method other than POST) fails with the error text
`e`, the handler does what `http.Error` does and nothing else: the response has
status 500 and its body is `e` followed by one line feed, hence not empty. -/
theorem load_failure_replies_error_line (env : Env) (w : ResponseWriter) (r : Request)
    (e : String) :
    (env.ParseFiles "templates/home.html" = .error e →
      homeHandler env w r = Error w e 500 ∧
      respond (homeHandler env) r = ⟨500, e ++ "\n"⟩) ∧
    (env.ParseFiles "templates/about.html" = .error e →
      aboutHandler env w r = Error w e 500 ∧
      respond (aboutHandler env) r = ⟨500, e ++ "\n"⟩) ∧
    (r.Method ≠ MethodPost → env.ParseFiles "templates/contact.html" = .error e →
      contactHandler env w r = Error w e 500 ∧
      respond (contactHandler env) r = ⟨500, e ++ "\n"⟩) ∧
    e ++ "\n" ≠ "" := by
  refine ⟨fun h => ⟨home_failed env w r e h, ?_⟩, fun h => ⟨about_failed env w r e h, ?_⟩,
    fun hm h => ⟨contact_failed env w r e hm h, ?_⟩, ?_⟩
  · unfold respond
    rw [home_failed env _ r e h]
    exact finish_Error_fresh e _
  · unfold respond
    rw [about_failed env _ r e h]
    exact finish_Error_fresh e _
  · unfold respond
    rw [contact_failed env _ r e hm h]
    exact finish_Error_fresh e _
  · intro h
    have hlen := congrArg String.length h
    simp only [String.length_append] at hlen
    have h1 : "\n".length = 1 := by decide
    have h0 : "".length = 0 := by decide
    omega

theorem load_failure_replies_error_line_witness :
    respond (homeHandler envMissing) (plainRequest "GET" "/") =
      ⟨500, "open templates/home.html: no such file or directory\n"⟩ :=
  ((load_failure_replies_error_line envMissing ResponseWriter.fresh (plainRequest "GET" "/")
    "open templates/home.html: no such file or directory").1 rfl).2

/-- C3 as stated fails: with `templates/home.html` missing, loading fails with the
text `open templates/home.html: no such file or directory`, and the body of the
response of the home handler is not that text (it carries a final line feed). -/
theorem load_failure_body_is_not_raw_text :
    envMissing.ParseFiles "templates/home.html" =
        .error "open templates/home.html: no such file or directory" ∧
    (respond (homeHandler envMissing) (plainRequest "GET" "/")).status = 500 ∧
    (respond (homeHandler envMissing) (plainRequest "GET" "/")).body ≠
      "open templates/home.html: no such file or directory" := by
  refine ⟨rfl, by decide, by decide⟩

/-- C7, as the code has it: a page handler ends in one of two ways.  Either its
template fails to load and the response is the 500 error reply, or the template
loads and the response is status 200 with whatever the execution of the template
wrote, be the execution complete or stopped by an error; the contact handler on
a POST always answers 200 with the acknowledgment. -/
theorem handler_outcomes (env : Env) (r : Request) :
    ((∃ e, env.ParseFiles "templates/home.html" = .error e ∧
        respond (homeHandler env) r = ⟨500, e ++ "\n"⟩) ∨
      (∃ tmpl, env.ParseFiles "templates/home.html" = .ok tmpl ∧
        respond (homeHandler env) r = ⟨200, (tmpl (some homeData)).out⟩)) ∧
    ((∃ e, env.ParseFiles "templates/about.html" = .error e ∧
        respond (aboutHandler env) r = ⟨500, e ++ "\n"⟩) ∨
      (∃ tmpl, env.ParseFiles "templates/about.html" = .ok tmpl ∧
        respond (aboutHandler env) r = ⟨200, (tmpl (some aboutData)).out⟩)) ∧
    ((r.Method = MethodPost ∧
        respond (contactHandler env) r =
          ⟨200, "Thank you " ++ r.FormValue "name" ++
            "! Your message has been received.\nEmail: " ++ r.FormValue "email" ++
            "\nMessage: " ++ r.FormValue "message"⟩) ∨
      (r.Method ≠ MethodPost ∧
        ∃ e, env.ParseFiles "templates/contact.html" = .error e ∧
          respond (contactHandler env) r = ⟨500, e ++ "\n"⟩) ∨
      (r.Method ≠ MethodPost ∧
        ∃ tmpl, env.ParseFiles "templates/contact.html" = .ok tmpl ∧
          respond (contactHandler env) r = ⟨200, (tmpl none).out⟩)) := by
  refine ⟨?_, ?_, ?_⟩
  · cases h : env.ParseFiles "templates/home.html" with
    | error e =>
      refine Or.inl ⟨e, rfl, ?_⟩
      unfold respond
      rw [home_failed env _ r e h]
      exact finish_Error_fresh e _
    | ok tmpl => exact Or.inr ⟨tmpl, rfl, home_loaded env r tmpl h⟩
  · cases h : env.ParseFiles "templates/about.html" with
    | error e =>
      refine Or.inl ⟨e, rfl, ?_⟩
      unfold respond
      rw [about_failed env _ r e h]
      exact finish_Error_fresh e _
    | ok tmpl => exact Or.inr ⟨tmpl, rfl, about_loaded env r tmpl h⟩
  · by_cases hm : r.Method = MethodPost
    · exact Or.inl ⟨hm, contact_post env r hm⟩
    · cases h : env.ParseFiles "templates/contact.html" with
      | error e =>
        refine Or.inr (Or.inl ⟨hm, e, rfl, ?_⟩)
        unfold respond
        rw [contact_failed env _ r e hm h]
        exact finish_Error_fresh e _
      | ok tmpl => exact Or.inr (Or.inr ⟨hm, tmpl, rfl, contact_loaded env r tmpl hm h⟩)

/-- C7 as stated fails: a home template that loads and then fails while it is
executed, after its opening tags were written, leaves a response with status 200
and the unfinished page as its body, not the 500 error reply. -/
theorem render_failure_is_not_reported :
    envBroken.ParseFiles "templates/home.html" = .ok brokenPage ∧
    (brokenPage (some homeData)).err ≠ none ∧
    respond (homeHandler envBroken) (plainRequest "GET" "/") = ⟨200, "<html><h1>"⟩ ∧
    (respond (homeHandler envBroken) (plainRequest "GET" "/")).status ≠ 500 := by
  refine ⟨rfl, by decide, by decide, by decide⟩

/-! ## Paths and their segments -/

theorem splitSlash_ne_nil (p : List Char) : ∃ e es, splitSlash p = e :: es := by
  induction p with
  | nil => exact ⟨[], [], rfl⟩
  | cons c cs ih =>
    obtain ⟨e, es, h⟩ := ih
    by_cases hc : c = '/'
    · exact ⟨[], e :: es, by simp [splitSlash, h, hc]⟩
    · exact ⟨c :: e, es, by simp [splitSlash, h, hc]⟩

theorem splitSlash_slash (cs : List Char) : splitSlash ('/' :: cs) = [] :: splitSlash cs := by
  obtain ⟨e, es, h⟩ := splitSlash_ne_nil cs
  simp [splitSlash, h]

theorem splitSlash_of_no_slash (p : List Char) (h : '/' ∉ p) : splitSlash p = [p] := by
  induction p with
  | nil => rfl
  | cons c cs ih =>
    have hc : c ≠ '/' := fun e => h (by simp [e])
    have hcs : '/' ∉ cs := fun e => h (by simp [e])
    simp [splitSlash, ih hcs, hc]

theorem splitSlash_append (e q : List Char) (h : '/' ∉ e) :
    splitSlash (e ++ '/' :: q) = e :: splitSlash q := by
  induction e with
  | nil => exact splitSlash_slash q
  | cons c cs ih =>
    have hc : c ≠ '/' := fun e => h (by simp [e])
    have hcs : '/' ∉ cs := fun e => h (by simp [e])
    simp [splitSlash, ih hcs, hc]

theorem split_first (p : List Char) :
    '/' ∉ p ∨ ∃ e q, '/' ∉ e ∧ p = e ++ '/' :: q := by
  induction p with
  | nil => exact Or.inl (by simp)
  | cons c cs ih =>
    by_cases hc : c = '/'
    · exact Or.inr ⟨[], cs, by simp, by simp [hc]⟩
    · rcases ih with h | ⟨e, q, he, hq⟩
      · left
        intro hm
        rcases List.mem_cons.1 hm with h1 | h1
        · exact hc h1.symm
        · exact h h1
      · right
        refine ⟨c :: e, q, ?_, by simp [hq]⟩
        intro hm
        rcases List.mem_cons.1 hm with h1 | h1
        · exact hc h1.symm
        · exact he h1

theorem unescape_cons_of_ne (c : Char) (rest : List Char) (hc : c ≠ '%') :
    unescape (c :: rest) = (unescape rest).map fun t => c :: t := by
  rcases rest with _ | ⟨a, _ | ⟨b, r⟩⟩ <;> simp [unescape, hc]

theorem unescape_of_no_percent (l : List Char) (h : '%' ∉ l) : unescape l = some l := by
  induction l with
  | nil => rfl
  | cons c cs ih =>
    have hc : c ≠ '%' := fun e => h (by simp [e])
    have hcs : '%' ∉ cs := fun e => h (by simp [e])
    rw [unescape_cons_of_ne c cs hc, ih hcs]
    rfl

theorem pathUnescape_of_no_percent (l : List Char) (h : '%' ∉ l) : pathUnescape l = l := by
  simp [pathUnescape, unescape_of_no_percent l h]

theorem escape_of_safe (l : List Char) (h : ∀ c ∈ l, shouldEscape c = false) :
    escape l = l := by
  induction l with
  | nil => rfl
  | cons c cs ih =>
    have hc : shouldEscape c = false := h c (by simp)
    have hcs : ∀ d ∈ cs, shouldEscape d = false := fun d hd => h d (by simp [hd])
    simp [escape, hc, ih hcs]

theorem no_percent_of_safe (l : List Char) (h : ∀ c ∈ l, shouldEscape c = false) :
    '%' ∉ l := by
  intro hm
  have := h '%' hm
  revert this
  decide

theorem first_slash_unique (a b x y : List Char) (ha : '/' ∉ a) (hb : '/' ∉ b)
    (h : a ++ '/' :: x = b ++ '/' :: y) : a = b := by
  induction a generalizing b with
  | nil =>
    cases b with
    | nil => rfl
    | cons d ds =>
      simp only [List.nil_append, List.cons_append, List.cons.injEq] at h
      exact absurd (List.mem_cons.2 (Or.inl h.1)) hb
  | cons c cs ih =>
    cases b with
    | nil =>
      simp only [List.nil_append, List.cons_append, List.cons.injEq] at h
      exact absurd (List.mem_cons.2 (Or.inl h.1.symm)) ha
    | cons d ds =>
      simp only [List.cons_append, List.cons.injEq] at h
      have hcs : '/' ∉ cs := fun e => ha (by simp [e])
      have hds : '/' ∉ ds := fun e => hb (by simp [e])
      rw [h.1, ih ds hcs hds h.2]

theorem segmentsOf_ne_nil (e : List Char) (es : List (List Char)) :
    ∃ t rest, segmentsOf (e :: es) = t :: rest := by
  cases es with
  | nil =>
    by_cases h : e = []
    · exact ⟨['/'], [], by simp [segmentsOf, h]⟩
    · exact ⟨pathUnescape e, [], by simp [segmentsOf, h]⟩
  | cons e2 es => exact ⟨pathUnescape e, segmentsOf (e2 :: es), by simp [segmentsOf]⟩

/-! ## Dispatch -/

theorem DefaultServeMux_eq :
    DefaultServeMux = ⟨[homeEntry, aboutEntry, contactEntry, staticEntry]⟩ := by
  decide

theorem routingMatch_nil (segs : List (List Char)) : routingMatch [] segs = none := by
  induction segs with
  | nil => rfl
  | cons s rest ih => simp [routingMatch, ih]

theorem main_root :
    (main.mux.patterns.map fun e => (e.segments, e)) =
      [([], homeEntry), (["about".data], aboutEntry), (["contact".data], contactEntry),
        (["static".data], staticEntry)] := by
  decide

theorem root_match_one (s : List Char) :
    routingMatch (main.mux.patterns.map fun e => (e.segments, e)) [s] =
      some (if s = "about".data then aboutEntry
        else if s = "contact".data then contactEntry else homeEntry) := by
  rw [main_root]
  by_cases h1 : s = "about".data
  · subst h1; decide
  by_cases h2 : s = "contact".data
  · subst h2; decide
  by_cases h3 : s = "static".data
  · subst h3; decide
  have h1' : ¬ "about".data = s := fun h => h1 h.symm
  have h2' : ¬ "contact".data = s := fun h => h2 h.symm
  have h3' : ¬ "static".data = s := fun h => h3 h.symm
  simp only [routingMatch, List.filterMap, h1', h2', h3', if_false, List.find?, h1, h2]
  rfl

theorem root_match_more (s t : List Char) (rest : List (List Char)) :
    routingMatch (main.mux.patterns.map fun e => (e.segments, e)) (s :: t :: rest) =
      some (if s = "static".data then staticEntry else homeEntry) := by
  rw [main_root]
  by_cases h3 : s = "static".data
  · subst h3
    simp only [routingMatch, List.filterMap, routingMatch_nil]
    rfl
  by_cases h1 : s = "about".data
  · subst h1
    simp only [routingMatch, List.filterMap, routingMatch_nil]
    rfl
  by_cases h2 : s = "contact".data
  · subst h2
    simp only [routingMatch, List.filterMap, routingMatch_nil]
    rfl
  have h1' : ¬ "about".data = s := fun h => h1 h.symm
  have h2' : ¬ "contact".data = s := fun h => h2 h.symm
  have h3' : ¬ "static".data = s := fun h => h3 h.symm
  simp only [routingMatch, List.filterMap, h1', h2', h3', if_false, List.find?, h3,
    routingMatch_nil]
  rfl

theorem static_prefix_iff (e q : List Char) (he : '/' ∉ e) :
    "static/".data <+: e ++ '/' :: q ↔ e = "static".data := by
  constructor
  · rintro ⟨x, hx⟩
    have h : "static".data ++ '/' :: x = e ++ '/' :: q := by simpa using hx
    exact (first_slash_unique _ _ _ _ (by decide) he h).symm
  · intro h
    subst h
    exact ⟨q, by simp⟩

theorem main_matchTree_rooted (path : String) (p : List Char) (hd : path.data = '/' :: p)
    (hp : '%' ∉ p) :
    main.mux.matchTree path =
      some (if p = "about".data then aboutEntry
        else if p = "contact".data then contactEntry
        else if "static/".data <+: p then staticEntry else homeEntry) := by
  unfold ServeMux.matchTree
  rw [hd]
  cases p with
  | nil =>
    have hs : pathSegments ['/'] = [['/']] := by simp [pathSegments]
    rw [hs, root_match_one]
    rfl
  | cons c cs =>
    have hs : pathSegments ('/' :: c :: cs) = segmentsOf (splitSlash (c :: cs)) := by
      simp [pathSegments]
    rw [hs]
    rcases split_first (c :: cs) with h | ⟨e, q, he, hq⟩
    · have hseg : segmentsOf (splitSlash (c :: cs)) = [c :: cs] := by
        rw [splitSlash_of_no_slash _ h]
        simp [segmentsOf, pathUnescape_of_no_percent _ hp]
      have hst : ¬ "static/".data <+: c :: cs := by
        rintro ⟨x, hx⟩
        apply h
        rw [← hx]
        simp
      rw [hseg, root_match_one]
      simp only [hst, if_false]
    · have hpe : '%' ∉ e := by
        intro hm
        apply hp
        rw [hq]
        simp [hm]
      obtain ⟨e2, es, h2⟩ := splitSlash_ne_nil q
      obtain ⟨t, rest, h3⟩ := segmentsOf_ne_nil e2 es
      have hseg : segmentsOf (splitSlash (c :: cs)) = e :: t :: rest := by
        rw [hq, splitSlash_append e q he, h2]
        simp [segmentsOf, h3, pathUnescape_of_no_percent _ hpe]
      have hslash : '/' ∈ c :: cs := by rw [hq]; simp
      have ha : c :: cs ≠ "about".data := by
        intro h; rw [h] at hslash; revert hslash; decide
      have hc : c :: cs ≠ "contact".data := by
        intro h; rw [h] at hslash; revert hslash; decide
      rw [hseg, root_match_more]
      simp only [ha, hc, if_false]
      rw [hq]
      by_cases hst : e = "static".data
      · simp only [hst, if_true, (static_prefix_iff _ q (by decide)).2 rfl]
      · have := (static_prefix_iff e q he).not.2 hst
        simp only [hst, this, if_false]

theorem append_slash_data (path : String) (p : List Char) (hd : path.data = '/' :: p) :
    (path ++ "/").data = '/' :: (p ++ ['/']) := by
  simp [hd]

theorem main_no_slash_redirect (path : String) (p : List Char) (hd : path.data = '/' :: p)
    (hp : '%' ∉ p) (hs : p ≠ "static".data) :
    exactMatch (main.mux.matchTree (path ++ "/")) (path ++ "/") = false := by
  have hd2 := append_slash_data path p hd
  have hp2 : '%' ∉ p ++ ['/'] := by
    intro hm
    rcases List.mem_append.1 hm with h | h
    · exact hp h
    · revert h; decide
  have hlast : (p ++ ['/']).getLast? = some '/' := by simp
  have ha : p ++ ['/'] ≠ "about".data := by
    intro h
    have := congrArg List.getLast? h
    rw [hlast] at this
    revert this; decide
  have hc : p ++ ['/'] ≠ "contact".data := by
    intro h
    have := congrArg List.getLast? h
    rw [hlast] at this
    revert this; decide
  have hcount : (path ++ "/").data.count '/' = p.count '/' + 2 := by
    rw [hd2]; simp
  rw [main_matchTree_rooted _ _ hd2 hp2]
  simp only [ha, hc, if_false]
  by_cases hst : "static/".data <+: p ++ ['/']
  · simp only [hst, if_true, exactMatch, staticEntry]
    have hne : p.count '/' ≠ 0 := by
      intro h0
      have hno : '/' ∉ p := List.count_eq_zero.1 h0
      exact hs ((static_prefix_iff p [] hno).1 hst)
    rw [hcount]
    split
    · rename_i h; exact absurd h (by decide)
    · split
      · rfl
      · simp only [List.length_cons, List.length_nil, decide_eq_false_iff_not]
        omega
  · simp only [hst, if_false, exactMatch, homeEntry]
    rw [hcount]
    split
    · rename_i h; exact absurd h (by decide)
    · split
      · rfl
      · simp only [List.length_nil, decide_eq_false_iff_not]
        omega

theorem main_matchOrRedirect (path : String) (p : List Char) (u : String)
    (hd : path.data = '/' :: p) (hp : '%' ∉ p) (hs : p ≠ "static".data) :
    main.mux.matchOrRedirect path (some u) = (main.mux.matchTree path, none) := by
  simp [ServeMux.matchOrRedirect, main_no_slash_redirect path p hd hp hs]

theorem main_static_redirect (u : String) :
    main.mux.matchOrRedirect "/static" (some u) = (none, some (cleanPath u ++ "/")) := by
  have h1 : exactMatch (main.mux.matchTree "/static") "/static" = false := by decide
  have h2 : exactMatch (main.mux.matchTree "/static/") "/static/" = true := by
    decide
  have h3 : "/static".data.getLast? ≠ some '/' := by decide
  simp [ServeMux.matchOrRedirect, h1, h2, h3]

theorem pathClean_rooted (t : List Char) : ∃ out, pathClean ('/' :: t) = '/' :: out := by
  simp [pathClean]

theorem cleanPath_rooted (p : String) : ∃ t, (cleanPath p).data = '/' :: t := by
  unfold cleanPath
  by_cases h0 : p = ""
  · simp [h0]
  simp only [h0, if_false]
  have hp1 : ∃ t, (if p.data.head? = some '/' then p else "/" ++ p).data = '/' :: t := by
    by_cases hh : p.data.head? = some '/'
    · simp only [hh, if_true]
      cases hd : p.data with
      | nil => simp [hd] at hh
      | cons c cs =>
        simp only [hd, List.head?_cons, Option.some.injEq] at hh
        exact ⟨cs, by rw [hh]⟩
    · simp only [hh, if_false]
      exact ⟨p.data, by simp⟩
  revert hp1
  generalize (if p.data.head? = some '/' then p else "/" ++ p) = q
  intro hp1
  obtain ⟨t, ht⟩ := hp1
  obtain ⟨out, hout⟩ := pathClean_rooted t
  simp only [ht, hout]
  split
  · split
    · exact ⟨t, ht⟩
    · exact ⟨out ++ ['/'], by simp⟩
  · exact ⟨out, rfl⟩

theorem main_matchTree_isSome (path : String) (p : List Char) (hd : path.data = '/' :: p) :
    ∃ e, main.mux.matchTree path = some e := by
  unfold ServeMux.matchTree
  rw [hd]
  have hseg : ∃ s rest, pathSegments ('/' :: p) = s :: rest := by
    cases p with
    | nil => exact ⟨['/'], [], by simp [pathSegments]⟩
    | cons c cs =>
      obtain ⟨e, es, h⟩ := splitSlash_ne_nil (c :: cs)
      obtain ⟨t, rest, h2⟩ := segmentsOf_ne_nil e es
      exact ⟨t, rest, by simp [pathSegments, h, h2]⟩
  obtain ⟨s, rest, h⟩ := hseg
  rw [h]
  cases rest with
  | nil => exact ⟨_, root_match_one s⟩
  | cons t rest => exact ⟨_, root_match_more s t rest⟩

theorem EscapedPath_of_plain (r : Request) (hRaw : r.RawPath = "")
    (hSafe : ∀ c ∈ r.Path.data, shouldEscape c = false) : r.EscapedPath = r.Path := by
  unfold Request.EscapedPath
  have h1 : ¬ (r.RawPath ≠ "" ∧ validEncoded r.RawPath.data = true ∧
      unescape r.RawPath.data = some r.Path.data) := fun h => h.1 hRaw
  rw [if_neg h1]
  by_cases h2 : r.Path = "*"
  · rw [if_pos h2, h2]
  · rw [if_neg h2]
    apply String.ext
    exact escape_of_safe _ hSafe

theorem main_Handler_canonical (r : Request) (hM : r.Method ≠ "CONNECT")
    (hc : cleanPath r.EscapedPath = r.EscapedPath) :
    main.mux.Handler r =
      match main.mux.matchOrRedirect r.EscapedPath (some r.Path) with
      | (_, some u) => .redirect u
      | (n, none) => routeOf n := by
  unfold ServeMux.Handler
  simp only [hM, if_false, hc]
  split <;> simp

theorem main_Handler_not_canonical (r : Request) (hM : r.Method ≠ "CONNECT")
    (hc : cleanPath r.EscapedPath ≠ r.EscapedPath) :
    ∃ u, main.mux.Handler r = .redirect u := by
  unfold ServeMux.Handler
  simp only [hM, if_false]
  split
  · exact ⟨_, rfl⟩
  · exact ⟨cleanPath r.EscapedPath, by simp [hc]⟩

theorem rooted_eq_iff (path : String) (t l : List Char) (hd : path.data = '/' :: t) :
    path = ⟨'/' :: l⟩ ↔ t = l := by
  constructor
  · intro h
    have := congrArg String.data h
    rw [hd] at this
    simpa using this
  · intro h
    apply String.ext
    rw [hd, h]

theorem main_Handler_plain (r : Request) (hM : r.Method ≠ "CONNECT")
    (hRaw : r.RawPath = "") (hSafe : ∀ c ∈ r.Path.data, shouldEscape c = false)
    (hc : cleanPath r.Path = r.Path) (hs : r.Path ≠ "/static") :
    main.mux.Handler r =
      .handler (if r.Path = "/about" then .about
        else if r.Path = "/contact" then .contact
        else if "/static/".data <+: r.Path.data then .static else .home) := by
  have hE := EscapedPath_of_plain r hRaw hSafe
  obtain ⟨t, ht⟩ := cleanPath_rooted r.Path
  rw [hc] at ht
  have hp : '%' ∉ t := by
    intro hm
    exact no_percent_of_safe _ hSafe (by rw [ht]; simp [hm])
  have hst : t ≠ "static".data := fun h => hs ((rooted_eq_iff r.Path t _ ht).2 h)
  have ha : r.Path = "/about" ↔ t = "about".data := rooted_eq_iff r.Path t _ ht
  have hco : r.Path = "/contact" ↔ t = "contact".data := rooted_eq_iff r.Path t _ ht
  have hpre : "/static/".data <+: r.Path.data ↔ "static/".data <+: t := by
    rw [ht]
    exact List.cons_prefix_cons.trans ⟨fun h => h.2, fun h => ⟨rfl, h⟩⟩
  rw [main_Handler_canonical r hM (by rw [hE, hc]), hE,
    main_matchOrRedirect r.Path t r.Path ht hp hst, main_matchTree_rooted r.Path t ht hp]
  simp only [routeOf, ha, hco, hpre]
  by_cases h1 : t = "about".data
  · simp [h1, aboutEntry]
  by_cases h2 : t = "contact".data
  · simp [h1, h2, contactEntry]
  by_cases h3 : "static/".data <+: t
  · simp [h1, h2, h3, staticEntry]
  · simp [h1, h2, h3, homeEntry]

theorem main_Handler_plain_redirect (r : Request) (hM : r.Method ≠ "CONNECT")
    (hRaw : r.RawPath = "") (hSafe : ∀ c ∈ r.Path.data, shouldEscape c = false)
    (hc : cleanPath r.Path ≠ r.Path ∨ r.Path = "/static") :
    ∃ u, main.mux.Handler r = .redirect u := by
  have hE := EscapedPath_of_plain r hRaw hSafe
  rcases hc with hc | hs
  · exact main_Handler_not_canonical r hM (by rw [hE]; exact hc)
  · have hcl : cleanPath r.EscapedPath = r.EscapedPath := by rw [hE, hs]; decide
    refine ⟨cleanPath r.Path ++ "/", ?_⟩
    rw [main_Handler_canonical r hM hcl, hE]
    have := main_static_redirect r.Path
    rw [← hs] at this
    rw [this]

theorem main_Handler_no_notFound (r : Request) (hM : r.Method ≠ "CONNECT") :
    main.mux.Handler r ≠ .notFound := by
  by_cases hc : cleanPath r.EscapedPath = r.EscapedPath
  · rw [main_Handler_canonical r hM hc]
    obtain ⟨t, ht⟩ := cleanPath_rooted r.EscapedPath
    rw [hc] at ht
    obtain ⟨e, he⟩ := main_matchTree_isSome r.EscapedPath t ht
    unfold ServeMux.matchOrRedirect
    simp only [he]
    split
    · simp
    · rename_i n heq
      split at heq
      · split at heq
        · simp at heq
        · simp only [Prod.mk.injEq, and_true] at heq
          rw [← heq]; simp [routeOf]
      · simp only [Prod.mk.injEq, and_true] at heq
        rw [← heq]; simp [routeOf]
  · obtain ⟨u, hu⟩ := main_Handler_not_canonical r hM hc
    rw [hu]; simp

theorem main_Handler_plain_cases (r : Request) (hM : r.Method ≠ "CONNECT")
    (hRaw : r.RawPath = "") (hSafe : ∀ c ∈ r.Path.data, shouldEscape c = false)
    (h : HandlerId) :
    main.mux.Handler r = .handler h ↔
      cleanPath r.Path = r.Path ∧ r.Path ≠ "/static" ∧
        h = (if r.Path = "/about" then .about
          else if r.Path = "/contact" then .contact
          else if "/static/".data <+: r.Path.data then .static else .home) := by
  by_cases hc : cleanPath r.Path = r.Path ∧ r.Path ≠ "/static"
  · rw [main_Handler_plain r hM hRaw hSafe hc.1 hc.2]
    constructor
    · intro hh
      exact ⟨hc.1, hc.2, (Route.handler.inj hh).symm⟩
    · intro hh
      rw [hh.2.2]
  · have hr : cleanPath r.Path ≠ r.Path ∨ r.Path = "/static" := by
      by_cases h1 : cleanPath r.Path = r.Path
      · right
        by_contra h2
        exact hc ⟨h1, h2⟩
      · exact Or.inl h1
    obtain ⟨u, hu⟩ := main_Handler_plain_redirect r hM hRaw hSafe hr
    rw [hu]
    constructor
    · intro hh
      exact absurd hh (by simp)
    · intro hh
      exact absurd ⟨hh.1, hh.2.1⟩ hc

/-- C4, as the code has it: `main` registers `/about` and `/contact` as exact
patterns, `/static/` as a pattern for everything below it, and `/` as the pattern
every remaining path falls under.  For no request other than a `CONNECT` does
the multiplexer select its not-found handler.  For a request other than a
`CONNECT` whose path needs no percent-escaping (no raw path, and only bytes that
are sent unescaped), the about handler is selected exactly when the path is
`/about`, the contact handler exactly when it is `/contact`, the static-file
responder exactly when the path is canonical and starts with `/static/`, and the
home handler exactly when the path is canonical, is none of `/about`, `/contact`
and `/static`, and does not start with `/static/`; so `/foo` is served by the
home handler. -/
theorem dispatch_by_pattern (r : Request) (hM : r.Method ≠ "CONNECT") :
    main.mux.Handler r ≠ .notFound ∧
    (r.RawPath = "" → (∀ c ∈ r.Path.data, shouldEscape c = false) →
      (main.mux.Handler r = .handler .about ↔ r.Path = "/about") ∧
      (main.mux.Handler r = .handler .contact ↔ r.Path = "/contact") ∧
      (main.mux.Handler r = .handler .static ↔
        cleanPath r.Path = r.Path ∧ "/static/".data <+: r.Path.data) ∧
      (main.mux.Handler r = .handler .home ↔
        cleanPath r.Path = r.Path ∧ r.Path ≠ "/about" ∧ r.Path ≠ "/contact" ∧
          r.Path ≠ "/static" ∧ ¬ "/static/".data <+: r.Path.data)) := by
  refine ⟨main_Handler_no_notFound r hM, fun hRaw hSafe => ?_⟩
  have key := main_Handler_plain_cases r hM hRaw hSafe
  refine ⟨?_, ?_, ?_, ?_⟩
  · rw [key]
    constructor
    · rintro ⟨_, _, h⟩
      by_contra hne
      split_ifs at h
    · intro h
      rw [h]
      decide
  · rw [key]
    constructor
    · rintro ⟨_, _, h⟩
      by_contra hne
      split_ifs at h
    · intro h
      rw [h]
      decide
  · rw [key]
    constructor
    · rintro ⟨hc, _, h⟩
      refine ⟨hc, ?_⟩
      by_contra hne
      split_ifs at h
    · rintro ⟨hc, hp⟩
      have h0 : r.Path ≠ "/static" := by
        intro h; rw [h] at hp; revert hp; decide
      have h1 : r.Path ≠ "/about" := by
        intro h; rw [h] at hp; revert hp; decide
      have h2 : r.Path ≠ "/contact" := by
        intro h; rw [h] at hp; revert hp; decide
      exact ⟨hc, h0, by rw [if_neg h1, if_neg h2, if_pos hp]⟩
  · rw [key]
    constructor
    · rintro ⟨hc, hs, h⟩
      refine ⟨hc, ?_, ?_, hs, ?_⟩
      · intro hne
        split_ifs at h
      · intro hne
        split_ifs at h
      · intro hne
        split_ifs at h
    · rintro ⟨hc, h1, h2, hs, hp⟩
      exact ⟨hc, hs, by rw [if_neg h1, if_neg h2, if_neg hp]⟩

theorem dispatch_by_pattern_witness :
    main.mux.Handler (plainRequest "GET" "/foo/bar") = .handler .home :=
  ((dispatch_by_pattern (plainRequest "GET" "/foo/bar") (by decide)).2 rfl
    (by decide)).2.2.2.2 ⟨by decide, by decide, by decide, by decide, by decide⟩

/-- C4 as stated fails: the path `/foo` is none of `/`, `/about`, `/contact` and
does not start with `/static/`, yet the home handler is selected for it and the
response is the one of the home handler, not the not-found reply. -/
theorem unknown_path_reaches_home :
    main.mux.Handler (plainRequest "GET" "/foo") = .handler .home ∧
    main.mux.Handler (plainRequest "GET" "/foo") ≠ .notFound ∧
    main.ServeHTTP envSite (plainRequest "GET" "/foo") =
      ⟨200, "<h1>Welcome to Go Website</h1><p>Go Developer</p>"⟩ ∧
    main.ServeHTTP envSite (plainRequest "GET" "/foo") ≠
      (NotFound ResponseWriter.fresh).finish := by
  refine ⟨by decide, by decide, by decide, by decide⟩

/-- The request `GET /static%2Fstyle.css` is not served the file `style.css`: its
escaped path has the single segment `static%2Fstyle.css`, so the multiplexer
gives it to the home handler; and the static-file responder, called with it,
finds no prefix `/static/` in the raw path and replies not found. -/
theorem escaped_slash_is_not_static :
    escapedSlashRequest.EscapedPath = "/static%2Fstyle.css" ∧
    main.mux.Handler escapedSlashRequest = .handler .home ∧
    staticHandler envSite ResponseWriter.fresh escapedSlashRequest =
      NotFound ResponseWriter.fresh := by
  refine ⟨by decide, by decide, by decide⟩

/-! ## Static files -/

theorem main_Handler_static (r : Request) (hRaw : r.RawPath = "")
    (hSafe : ∀ c ∈ r.Path.data, shouldEscape c = false)
    (hc : cleanPath r.Path = r.Path) (hp : "/static/".data <+: r.Path.data) :
    main.mux.Handler r = .handler .static := by
  have h0 : r.Path ≠ "/static" := by
    intro h; rw [h] at hp; revert hp; decide
  have h1 : r.Path ≠ "/about" := by
    intro h; rw [h] at hp; revert hp; decide
  have h2 : r.Path ≠ "/contact" := by
    intro h; rw [h] at hp; revert hp; decide
  by_cases hM : r.Method = "CONNECT"
  · have hE := EscapedPath_of_plain r hRaw hSafe
    obtain ⟨t, ht⟩ := cleanPath_rooted r.Path
    rw [hc] at ht
    have hpt : '%' ∉ t := by
      intro hm
      exact no_percent_of_safe _ hSafe (by rw [ht]; simp [hm])
    have hst : t ≠ "static".data := fun h => h0 ((rooted_eq_iff r.Path t _ ht).2 h)
    have ha : t ≠ "about".data := fun h => h1 ((rooted_eq_iff r.Path t _ ht).2 h)
    have hco : t ≠ "contact".data := fun h => h2 ((rooted_eq_iff r.Path t _ ht).2 h)
    have hpre : "static/".data <+: t := by
      rw [ht] at hp
      exact (List.cons_prefix_cons.1 hp).2
    unfold ServeMux.Handler
    simp only [hM, if_true, hE, main_matchOrRedirect r.Path t r.Path ht hpt hst]
    simp only [ServeMux.matchOrRedirect, main_matchTree_rooted r.Path t ht hpt, ha, hco, hpre,
      if_false, if_true, routeOf, staticEntry]
  · rw [main_Handler_plain r hM hRaw hSafe hc h0, if_neg h1, if_neg h2, if_pos hp]

theorem static_dispatch (env : Env) (r : Request) (p : String)
    (hPath : r.Path = "/static/" ++ p) (hRaw : r.RawPath = "")
    (hSafe : ∀ c ∈ r.Path.data, shouldEscape c = false)
    (hCanon : cleanPath r.Path = r.Path) :
    main.ServeHTTP env r = respond (staticHandler env) r := by
  have hpre : "/static/".data <+: r.Path.data := by
    rw [hPath]; exact ⟨p.data, by simp⟩
  have h := main_Handler_static r hRaw hSafe hCanon hpre
  simp only [Server.ServeHTTP, h, HandlerId.serve]

theorem static_strip (env : Env) (w : ResponseWriter) (r : Request) (p : String)
    (hPath : r.Path = "/static/" ++ p) (hRaw : r.RawPath = "")
    (hRel : p.data.head? ≠ some '/') :
    staticHandler env w r =
      serveFile env w { r with Path := "/" ++ p, RawPath := "" }
        ⟨pathClean ("/" ++ p).data⟩ := by
  have htrim : TrimPrefix r.Path "/static/" = p := by
    unfold TrimPrefix
    have hpre : "/static/".data <+: r.Path.data := by
      rw [hPath]; exact ⟨p.data, by simp⟩
    rw [if_pos hpre]
    apply String.ext
    rw [hPath]
    have h8 : "/static/".length = 8 := by decide
    simp only [h8, String.data_append]
    rfl
  have hraw : TrimPrefix "" "/static/" = "" := by decide
  have hlen : p.length < r.Path.length := by
    rw [hPath, String.length_append]
    have : "/static/".length = 8 := by decide
    omega
  simp only [staticHandler, StripPrefix, htrim, hlen, hRaw, FileServer, hRel, if_true,
    if_false]
  simp [hraw]

/-- C10, as the code has it: a request whose path is `/static/` followed by a
relative path `p`, in canonical form, needing no percent-escaping (no raw path,
and only bytes that are sent unescaped) and not ending in `/index.html`, is
passed to the file server with the prefix stripped, and `p` is looked up under
`./static`.  When `p` names nothing there the response is the 404 not-found
reply.  When `p` names a file, the response is status 200 with exactly the bytes
of the file provided that the path does not end in a slash, the method is not
`HEAD` and the request carries no precondition or range header. -/
theorem static_file_served (env : Env) (r : Request) (p : String)
    (hPath : r.Path = "/static/" ++ p)
    (hRaw : r.RawPath = "")
    (hSafe : ∀ c ∈ r.Path.data, shouldEscape c = false)
    (hRel : p.data.head? ≠ some '/')
    (hCanon : cleanPath r.Path = r.Path)
    (hIndex : ¬ "/index.html".data <:+ ("/" ++ p).data) :
    (∀ content, env.Open ⟨pathClean ("/" ++ p).data⟩ = .ok (.file content) →
      ("/" ++ p).data.getLast? ≠ some '/' → r.Method ≠ "HEAD" → isConditional r = false →
      main.ServeHTTP env r = ⟨200, content⟩) ∧
    (env.Open ⟨pathClean ("/" ++ p).data⟩ = .error .notExist →
      main.ServeHTTP env r = ⟨404, "404 page not found\n"⟩) := by
  have hserve : main.ServeHTTP env r =
      (serveFile env ResponseWriter.fresh { r with Path := "/" ++ p, RawPath := "" }
        ⟨pathClean ("/" ++ p).data⟩).finish := by
    rw [static_dispatch env r p hPath hRaw hSafe hCanon]
    unfold respond
    rw [static_strip env _ r p hPath hRaw hRel]
  constructor
  · intro content hOpen hSlash hHead hCond
    have hCond2 : isConditional { r with Path := "/" ++ p, RawPath := "" } = false := hCond
    rw [hserve]
    simp only [serveFile, hIndex, if_false, hOpen, hSlash, serveContent, hCond2]
    simp only [hHead, ne_eq, not_false_eq_true, if_true]
    simp [ResponseWriter.fresh, ResponseWriter.Write, ResponseWriter.WriteHeader,
      ResponseWriter.finish, StatusOK]
  · intro hOpen
    rw [hserve]
    simp only [serveFile, hIndex, if_false, hOpen, toHTTPError]
    exact finish_Error_fresh _ _

theorem static_file_served_witness :
    main.ServeHTTP envSite (plainRequest "GET" "/static/style.css") =
      ⟨200, "h1 \x7b color: teal \x7d"⟩ :=
  (static_file_served envSite (plainRequest "GET" "/static/style.css") "style.css"
    (by decide) rfl (by decide) (by decide) (by decide) (by decide)).1
    "h1 \x7b color: teal \x7d" rfl (by decide) (by decide) (by decide)

/-- C10 as stated fails: `index.html` is an existing file under `./static`, and
the request for `/static/index.html` is answered with the redirect status 301
and an empty body instead of status 200 and the bytes of the file. -/
theorem static_index_is_redirected :
    envSite.Open ⟨pathClean "/index.html".data⟩ = .ok (.file "<html></html>") ∧
    main.mux.Handler (plainRequest "GET" "/static/index.html") = .handler .static ∧
    main.ServeHTTP envSite (plainRequest "GET" "/static/index.html") = ⟨301, ""⟩ ∧
    main.ServeHTTP envSite (plainRequest "GET" "/static/index.html") ≠
      ⟨200, "<html></html>"⟩ := by
  refine ⟨rfl, by decide, by decide, by decide⟩

end GoWebsite
